import Mathlib

/-!
Shallow embedding of `vendor/github.com/blackbeans/turbo/session/session.go`
(the per-connection network session of kiteq) and proofs about it.

Conventions of the embedding:
* bytes are `Nat`, byte buffers are `List Nat`;
* Go times are `Int` nanoseconds relative to the Unix epoch; Go durations are
  `Int` nanoseconds (an `int64` in Go);
* the transport is an oracle: a list of responses, one per call to the
  underlying buffered read or write primitive;
* fallible Go calls returning `(value, error)` become `Except Unit` values;
* channels are lists (FIFO); a buffered channel send succeeds when the buffer
  holds fewer elements than its capacity.
-/

namespace Turbo

/-- Modelled from the spec: the `packet` package is not under `src/`.  A header
is fixed-size and, beyond opacity, carries one field `BodyLen`, the declared
body length in bytes. -/
structure Header where
  bodyLen : Nat
  deriving Repr, DecidableEq

/-- Modelled from the spec: a packet is a header plus a raw byte body. -/
structure Packet where
  header : Header
  data : List Nat
  deriving Repr, DecidableEq

/-- Modelled from the spec: the optional flow-statistics sink of
`turbo.RemotingConfig` (not under `src/`): counters for connections and for
packets/bytes read and written, only ever incremented by the session core. -/
structure FlowStat where
  connections : Int
  readFlow : Int
  readBytesFlow : Int
  writeFlow : Int
  writeBytesFlow : Int
  deriving Repr, DecidableEq

/-- Outcome of a Go call that may dereference a nil pointer: either a value or
a runtime nil-pointer panic. -/
inductive GoResult (α : Type) where
  | ok (a : α)
  | nilPanic
  deriving Repr, DecidableEq

/-! ### Session.Write (the non-blocking enqueue), session.go lines 147-163 -/

/-- The two failure modes of `Session.Write`: the outbound channel is full, or
the session is already closed. -/
inductive WriteErr where
  | channelFull
  | sessionClosed
  deriving Repr, DecidableEq

/-- The state `Session.Write` consults: the closed flag and the buffered
outbound channel with its capacity (`rc.WriteChannelSize`). -/
structure WChanState where
  isClose : Bool
  writeChannel : List Packet
  cap : Nat
  deriving Repr, DecidableEq

/-- `Session.Write`: if the session is open, a `select` with a `default` branch
sends the packet to the buffered `WriteChannel` when it has room and otherwise
returns a "channel full" error; on a closed session it returns a "closed"
error.  The returned state is the channel after the call. -/
def sessionWrite (st : WChanState) (p : Packet) : Option WriteErr × WChanState :=
  if !st.isClose then
    if st.writeChannel.length < st.cap then
      (none, { st with writeChannel := st.writeChannel ++ [p] })
    else
      (some WriteErr.channelFull, st)
  else
    (some WriteErr.sessionClosed, st)

/-- C3: `Session.Write` never blocks (it is a total function of the state) and
its result is determined by the state: on an open session with spare capacity
the packet is appended and the call succeeds; on an open session with a full
queue it fails with the "channel full" error and the queue is unchanged; on a
closed session it fails with the distinct "closed" error; and the queue never
grows past its capacity. -/
theorem c3_enqueue_contract (st : WChanState) (p : Packet)
    (hcap : st.writeChannel.length ≤ st.cap) :
    (st.isClose = false → st.writeChannel.length < st.cap →
      sessionWrite st p = (none, { st with writeChannel := st.writeChannel ++ [p] })) ∧
    (st.isClose = false → st.cap ≤ st.writeChannel.length →
      sessionWrite st p = (some WriteErr.channelFull, st)) ∧
    (st.isClose = true →
      sessionWrite st p = (some WriteErr.sessionClosed, st)) ∧
    (sessionWrite st p).2.writeChannel.length ≤ st.cap := by
  unfold sessionWrite
  refine ⟨?_, ?_, ?_, ?_⟩
  · intro hc hlt
    simp [hc, hlt]
  · intro hc hge
    simp [hc, Nat.not_lt.mpr hge]
  · intro hc
    simp [hc]
  · by_cases hc : st.isClose
    · simp [hc, hcap]
    · by_cases hlt : st.writeChannel.length < st.cap
      · simp [hc, hlt]
        omega
      · simp [hc, hlt, hcap]

/-- Witness for C3 at a concrete open session with room for one packet. -/
theorem c3_enqueue_contract_witness :
    sessionWrite ⟨false, [], 2⟩ ⟨⟨1⟩, [7]⟩ =
      (none, ⟨false, [⟨⟨1⟩, [7]⟩], 2⟩) :=
  (c3_enqueue_contract ⟨false, [], 2⟩ ⟨⟨1⟩, [7]⟩ (by decide)).1 rfl (by decide)

/-! ### Session.Close, session.go lines 259-273

`Close` is guarded only by an unsynchronized read of `isClose`
(`if !self.isClose { self.isClose = true; ... }`); the teardown flushes the
buffered writer, closes the TCP connection, closes both channels and
decrements the live-connection counter.  The model counts each teardown
effect so that "exactly once" is a statement about the counts. -/

/-- The shared state `Session.Close` mutates, with one counter per teardown
effect (flush, conn.Close, close of each channel) and the process-wide
live-connection counter; a channel-close count above 1 is a Go runtime panic
(close of a closed channel). -/
structure CloseState where
  isClose : Bool
  flushCount : Nat
  connCloseCount : Nat
  writeChanCloseCount : Nat
  readChanCloseCount : Nat
  connections : Int
  deriving Repr, DecidableEq

/-- The guard of `Session.Close`: proceed only when `isClose` is still false. -/
def closeGuard (s : CloseState) : Bool := !s.isClose

/-- The teardown body of `Session.Close`: set the flag, flush, close the
connection, close both channels, decrement the live-connection counter. -/
def closeBody (s : CloseState) : CloseState :=
  { s with
    isClose := true
    flushCount := s.flushCount + 1
    connCloseCount := s.connCloseCount + 1
    writeChanCloseCount := s.writeChanCloseCount + 1
    readChanCloseCount := s.readChanCloseCount + 1
    connections := s.connections - 1 }

/-- `Session.Close` as one atomic (non-interleaved) call. -/
def sessionClose (s : CloseState) : CloseState :=
  if closeGuard s then closeBody s else s

/-- `n` sequential, non-overlapping calls of `Session.Close`. -/
def closeCalls : Nat → CloseState → CloseState
  | 0, s => s
  | n + 1, s => closeCalls n (sessionClose s)

/-- Micro-step position of one caller inside `Session.Close`: before the
`isClose` check, after a passed check but before the teardown, or done. -/
inductive CallerPc where
  | start
  | armed
  | done
  deriving Repr, DecidableEq

/-- Two concurrent callers of `Session.Close` sharing one `CloseState`. -/
structure TwoClose where
  shared : CloseState
  pcA : CallerPc
  pcB : CallerPc
  deriving Repr, DecidableEq

/-- One micro-step of a caller: the guard read and the teardown body are
separate steps, exactly as `if !self.isClose` and the block it guards are
separate memory operations in the source. -/
def closeStep (sh : CloseState) : CallerPc → CloseState × CallerPc
  | CallerPc.start => if closeGuard sh then (sh, CallerPc.armed) else (sh, CallerPc.done)
  | CallerPc.armed => (closeBody sh, CallerPc.done)
  | CallerPc.done => (sh, CallerPc.done)

/-- Run two concurrent `Close` callers under a schedule: `true` steps caller A,
`false` steps caller B. -/
def runClose : List Bool → TwoClose → TwoClose
  | [], t => t
  | true :: rest, t =>
    let sp := closeStep t.shared t.pcA
    runClose rest { shared := sp.1, pcA := sp.2, pcB := t.pcB }
  | false :: rest, t =>
    let sp := closeStep t.shared t.pcB
    runClose rest { shared := sp.1, pcA := t.pcA, pcB := sp.2 }

/-- Sequential sanity fact (not one of the claims): for non-overlapping calls,
however many times `Close` is invoked from an initially open session, the
teardown runs exactly once and later calls change nothing. -/
theorem closeCalls_sequential_once (s : CloseState) (n : Nat)
    (hopen : s.isClose = false) (hn : 1 ≤ n) :
    closeCalls n s = closeBody s := by
  have hfix : ∀ m t, t.isClose = true → closeCalls m t = t := by
    intro m
    induction m with
    | zero => intro t _; rfl
    | succ k ih =>
      intro t ht
      simp only [closeCalls, sessionClose, closeGuard, ht]
      simpa using ih t ht
  obtain ⟨k, rfl⟩ : ∃ k, n = k + 1 := ⟨n - 1, by omega⟩
  simp only [closeCalls, sessionClose, closeGuard, hopen]
  exact hfix k (closeBody s) rfl

/-- C2 (race): with the interleaving A-check, B-check, A-teardown, B-teardown
from an open session, both callers pass the unguarded `isClose` check and the
teardown runs twice: each channel is closed twice (a Go runtime panic) and the
live-connection counter is decremented twice, from 1 down to -1 — refuting the
exactly-once guarantee for concurrent callers. -/
theorem c2_close_race_double_teardown :
    (runClose [true, false, true, false]
        ⟨⟨false, 0, 0, 0, 0, 1⟩, CallerPc.start, CallerPc.start⟩).shared.writeChanCloseCount = 2 ∧
    (runClose [true, false, true, false]
        ⟨⟨false, 0, 0, 0, 0, 1⟩, CallerPc.start, CallerPc.start⟩).shared.readChanCloseCount = 2 ∧
    (runClose [true, false, true, false]
        ⟨⟨false, 0, 0, 0, 0, 1⟩, CallerPc.start, CallerPc.start⟩).shared.connections = -1 ∧
    (runClose [true, false, true, false]
        ⟨⟨false, 0, 0, 0, 0, 1⟩, CallerPc.start, CallerPc.start⟩).pcA = CallerPc.done ∧
    (runClose [true, false, true, false]
        ⟨⟨false, 0, 0, 0, 0, 1⟩, CallerPc.start, CallerPc.start⟩).pcB = CallerPc.done := by
  decide

/-! ### Lifecycle: NewSession, Close with the nil flow-statistics sink, Idle
(session.go lines 32-64 and 259-273) -/

/-- The zero `time.Time` of Go (January 1, year 1 UTC) in nanoseconds relative
to the Unix epoch: -62135596800 seconds. -/
def goZeroTimeNs : Int := -62135596800000000000

/-- The lifecycle-relevant fields of a session: the closed flag, the
last-activity timestamp (`lasttime`, zero-valued at construction) and the
optional flow-statistics sink of its config. -/
structure SessionLC where
  isClose : Bool
  lasttime : Int
  flowStat : Option FlowStat
  deriving Repr, DecidableEq

/-- `NewSession`: builds the session with `isClose = false` and `lasttime` at
its zero value, then runs `rc.FlowStat.Connections.Incr(1)` with no nil guard —
a nil sink makes construction panic. -/
def newSession (fs : Option FlowStat) : GoResult SessionLC :=
  match fs with
  | none => GoResult.nilPanic
  | some f =>
    GoResult.ok
      { isClose := false
        lasttime := goZeroTimeNs
        flowStat := some { f with connections := f.connections + 1 } }

/-- `Session.Close` on the lifecycle state: when still open it sets the flag,
tears down, and runs `rc.FlowStat.Connections.Incr(-1)` with no nil guard — a
nil sink makes the close panic (after the channels were already closed). -/
def sessionCloseLC (s : SessionLC) : GoResult SessionLC :=
  if !s.isClose then
    match s.flowStat with
    | none => GoResult.nilPanic
    | some f =>
      GoResult.ok
        { s with
          isClose := true
          flowStat := some { f with connections := f.connections - 1 } }
  else
    GoResult.ok s

/-- `Session.Idle`: `time.Now().After(self.lasttime.Add(self.rc.IdleTime))`,
i.e. strictly after the last-activity timestamp plus the idle threshold. -/
def sessionIdle (lasttime idleTime now : Int) : Bool :=
  decide (lasttime + idleTime < now)

/-- C10: a freshly constructed session is idle immediately: its `lasttime` is
the zero time of Go, so for any present time at or after the Unix epoch and
any `int64` idle duration, `Idle()` returns true before the first write. -/
theorem c10_fresh_session_idle (f : FlowStat) (s : SessionLC) (now idleTime : Int)
    (hnew : newSession (some f) = GoResult.ok s)
    (hnow : 0 ≤ now) (hdur : idleTime ≤ 9223372036854775807) :
    sessionIdle s.lasttime idleTime now = true := by
  have hs : s.lasttime = goZeroTimeNs := by
    cases hnew
    rfl
  rw [hs]
  simp only [sessionIdle, goZeroTimeNs, decide_eq_true_eq]
  omega

/-- Witness for C10 at a concrete sink, time zero and a zero idle threshold. -/
theorem c10_fresh_session_idle_witness :
    sessionIdle (SessionLC.mk false goZeroTimeNs (some ⟨1, 0, 0, 0, 0⟩)).lasttime 0 0 = true :=
  c10_fresh_session_idle ⟨0, 0, 0, 0, 0⟩ ⟨false, goZeroTimeNs, some ⟨1, 0, 0, 0, 0⟩⟩ 0 0
    rfl (le_refl 0) (by decide)

/-! ### Session.read0 (the exact-count byte-stream reader), session.go
lines 126-144 -/

/-- One response of the underlying buffered reader `br.Read(buff[idx:])`: the
bytes it delivered and whether it returned an error (EOF included). -/
structure RResp where
  chunk : List Nat
  err : Bool
  deriving Repr, DecidableEq

/-- Result of `read0`: the returned buffer on success, whether a non-nil error
was returned, whether the session was closed on the way, and the transport
responses not yet consumed.  An exhausted oracle means the code is still
blocked inside the loop: no buffer, no error, session untouched. -/
structure R0Out where
  buff : Option (List Nat)
  errReturned : Bool
  closedSession : Bool
  rest : List RResp
  deriving Repr, DecidableEq

/-- The accumulation loop of `read0`: read into `buff[idx:]`; on any error
close the session and return `(nil, err)` (bytes delivered alongside the error
are discarded, as the source checks `err` before using `l`); otherwise advance
`idx` by the delivered length and stop once `idx >= len`.  A chunk can never
exceed the remaining room `N - idx`, as `br.Read` writes into the slice
`buff[idx:]`. -/
def read0Go (N : Nat) : Nat → List Nat → List RResp → R0Out
  | _, _, [] => ⟨none, false, false, []⟩
  | idx, buff, r :: rest =>
    if r.err then ⟨none, true, true, rest⟩
    else
      let c := r.chunk.take (N - idx)
      let buff' := buff.take idx ++ c ++ buff.drop (idx + c.length)
      let idx' := idx + c.length
      if N ≤ idx' then ⟨some buff', false, false, rest⟩
      else read0Go N idx' buff' rest

/-- `Session.read0`: allocate an `N`-byte buffer and loop until it is full or a
read fails. -/
def read0 (N : Nat) (resps : List RResp) : R0Out :=
  read0Go N 0 (List.replicate N 0) resps

/-- Inside the loop the buffer keeps its allocated length, so the buffer that
is eventually returned has exactly `N` bytes. -/
theorem read0Go_ok_length (N : Nat) :
    ∀ (resps : List RResp) (idx : Nat) (buff : List Nat),
      buff.length = N → idx ≤ N →
      ∀ b, (read0Go N idx buff resps).buff = some b → b.length = N := by
  intro resps
  induction resps with
  | nil =>
    intro idx buff _ _ b hb
    simp [read0Go] at hb
  | cons r rest ih =>
    intro idx buff hlen hidx b hb
    by_cases herr : r.err
    · simp [read0Go, herr] at hb
    · simp only [read0Go, herr, if_false, Bool.false_eq_true] at hb
      set c := r.chunk.take (N - idx) with hc
      have hclen : c.length ≤ N - idx := by
        simp [hc, List.length_take]
      have hbuffLen :
          (buff.take idx ++ c ++ buff.drop (idx + c.length)).length = N := by
        simp only [List.length_append, List.length_take, List.length_drop, hlen]
        omega
      by_cases hdone : N ≤ idx + c.length
      · simp only [hdone, if_true] at hb
        have : some (buff.take idx ++ c ++ buff.drop (idx + c.length)) = some b := hb
        cases this
        exact hbuffLen
      · simp only [hdone, if_false] at hb
        exact ih (idx + c.length) _ hbuffLen (by omega) b hb

/-- Whenever the loop returns a non-nil error, it closed the session first and
returned no buffer. -/
theorem read0Go_err_closes (N : Nat) :
    ∀ (resps : List RResp) (idx : Nat) (buff : List Nat),
      (read0Go N idx buff resps).errReturned = true →
      (read0Go N idx buff resps).closedSession = true ∧
        (read0Go N idx buff resps).buff = none := by
  intro resps
  induction resps with
  | nil => intro idx buff h; simp [read0Go] at h
  | cons r rest ih =>
    intro idx buff h
    by_cases herr : r.err
    · simp [read0Go, herr]
    · simp only [read0Go, herr, if_false, Bool.false_eq_true] at h ⊢
      by_cases hdone : N ≤ idx + (r.chunk.take (N - idx)).length
      · rw [if_pos hdone] at h
        simp at h
      · rw [if_neg hdone] at h ⊢
        exact ih _ _ h

/-- C6: `read0` returns either a buffer of exactly `N` bytes or an error,
never a partial buffer; and every read error from the transport closes the
session and is propagated (no buffer is returned alongside it). -/
theorem c6_read0_exact_or_error (N : Nat) (resps : List RResp) :
    (∀ b, (read0 N resps).buff = some b → b.length = N) ∧
    ((read0 N resps).errReturned = true →
      (read0 N resps).closedSession = true ∧ (read0 N resps).buff = none) := by
  constructor
  · exact read0Go_ok_length N resps 0 (List.replicate N 0)
      (List.length_replicate N 0) (Nat.zero_le N)
  · exact read0Go_err_closes N resps 0 (List.replicate N 0)

/-- Witness for C6: three bytes requested, delivered in chunks of two and one,
give back a buffer of exactly three bytes. -/
theorem c6_read0_exact_or_error_witness :
    ([1, 2, 9] : List Nat).length = 3 :=
  (c6_read0_exact_or_error 3 [⟨[1, 2], false⟩, ⟨[9], false⟩]).1 [1, 2, 9] (by decide)

/-! ### Session.write0 (batch encoding and the robust write), session.go
lines 166-214 -/

/-- The batch-building loop of `write0`: encode each packet with
`frameCodec.MarshalPacket` and append the bytes to the batch; a packet whose
encoding errors or comes back nil/empty (`nil != err || nil == p ||
len(p) <= 0`) is skipped with a logged warning. -/
def write0Batch (codec : Packet → Except Unit (List Nat)) (tlv : List Packet) : List Nat :=
  tlv.foldl
    (fun batch t =>
      match codec t with
      | Except.error _ => batch
      | Except.ok p => if p.length = 0 then batch else batch ++ p)
    []

/-- The encodings that survive the skip test of `write0`: a successful,
non-empty `MarshalPacket` result. -/
def marshalOk (codec : Packet → Except Unit (List Nat)) (t : Packet) : Option (List Nat) :=
  match codec t with
  | Except.error _ => none
  | Except.ok p => if p.length = 0 then none else some p

/-- Folding an append-or-skip step over a list concatenates, in order, exactly
the kept results. -/
theorem foldl_skip_append (g : Packet → Option (List Nat)) :
    ∀ (l : List Packet) (acc : List Nat),
      l.foldl
        (fun batch t =>
          match g t with
          | none => batch
          | some p => batch ++ p)
        acc = acc ++ (l.filterMap g).flatten := by
  intro l
  induction l with
  | nil => intro acc; simp
  | cons t rest ih =>
    intro acc
    rw [List.foldl_cons, List.filterMap_cons]
    cases hgt : g t with
    | none =>
      simp only [hgt]
      rw [ih acc]
    | some p =>
      simp only [hgt]
      rw [ih (acc ++ p), List.flatten_cons, List.append_assoc]

/-- C4: the batch assembled by `write0` is exactly the concatenation, in the
collection (enqueue) order, of the successful non-empty encodings of the
batched packets; a packet whose encoding fails or is empty is excluded without
aborting the batch or disturbing the order of the rest. -/
theorem c4_batch_is_ordered_concat (codec : Packet → Except Unit (List Nat))
    (tlv : List Packet) :
    write0Batch codec tlv = (tlv.filterMap (marshalOk codec)).flatten := by
  have hfun :
      (fun (batch : List Nat) (t : Packet) =>
        match codec t with
        | Except.error _ => batch
        | Except.ok p => if p.length = 0 then batch else batch ++ p) =
      (fun (batch : List Nat) (t : Packet) =>
        match marshalOk codec t with
        | none => batch
        | some p => batch ++ p) := by
    funext batch t
    cases hct : codec t with
    | error e => simp [marshalOk, hct]
    | ok p =>
      by_cases hp : p.length = 0
      · simp [marshalOk, hct, hp]
      · simp [marshalOk, hct, hp]
  unfold write0Batch
  rw [hfun]
  rw [foldl_skip_append (marshalOk codec) tlv []]
  simp

/-- The error classes the write loop of `write0` distinguishes:
`io.ErrShortWrite` (retry after resetting the buffered writer) and any other
error (fatal: close the session and abort). -/
inductive WErr where
  | shortWrite
  | fatal
  deriving Repr, DecidableEq

/-- One response of `self.bw.Write(tmp)`: the count of bytes it accepted and
the error it returned, if any. -/
structure WResp where
  n : Nat
  err : Option WErr
  deriving Repr, DecidableEq

/-- How the robust write of `write0` ended: the whole batch was written, a
fatal error closed the session and aborted, the write loop is still pending on
the transport (oracle exhausted), or the batch was empty and `write0` returned
before writing. -/
inductive W0Exit where
  | completed
  | closedAbort
  | pending
  | skipped
  deriving Repr, DecidableEq

/-- Result of `write0` past batch assembly: how it exited, the bytes the
transport accepted in order, whether the session was closed, and whether the
final `bw.Flush` was reached. -/
structure W0Out where
  exit : W0Exit
  wire : List Nat
  sessionClosed : Bool
  flushed : Bool
  deriving Repr, DecidableEq

/-- The retry loop of `write0`: attempt `bw.Write(tmp)`; a non-`ErrShortWrite`
error closes the session and returns; otherwise (`nil` or `ErrShortWrite`,
after which the source resets the buffered writer) add the accepted count to
`l`, break when `l == len(batch)`, and retry with the suffix
`tmp = batch[l:]`.  Bytes accepted by the writer count as on the wire. -/
def write0Wire (batch : List Nat) : List Nat → Nat → List WResp → List Nat → W0Out
  | _, _, [], wire => ⟨W0Exit.pending, wire, false, false⟩
  | tmp, l, r :: rest, wire =>
    let wire' := wire ++ tmp.take r.n
    if r.err = some WErr.fatal then ⟨W0Exit.closedAbort, wire', true, false⟩
    else
      let l' := l + r.n
      if l' = batch.length then ⟨W0Exit.completed, wire', false, true⟩
      else write0Wire batch (batch.drop l') l' rest wire'

/-- The write phase of `Session.write0`: return at once on an empty batch,
otherwise run the retry loop starting from the whole batch. -/
def write0Robust (batch : List Nat) (resps : List WResp) : W0Out :=
  if batch.length = 0 then ⟨W0Exit.skipped, [], false, false⟩
  else write0Wire batch batch 0 resps []

/-- Invariant of the retry loop: starting at offset `l` with the wire holding
the first `l` bytes of the batch, completion means the wire carries exactly the
batch (flushed, session open), and a fatal exit means the session was closed
before the flush. -/
theorem write0Wire_spec (batch : List Nat) :
    ∀ (resps : List WResp) (l : Nat),
      ((write0Wire batch (batch.drop l) l resps (batch.take l)).exit = W0Exit.completed →
        (write0Wire batch (batch.drop l) l resps (batch.take l)).wire = batch ∧
        (write0Wire batch (batch.drop l) l resps (batch.take l)).sessionClosed = false ∧
        (write0Wire batch (batch.drop l) l resps (batch.take l)).flushed = true) ∧
      ((write0Wire batch (batch.drop l) l resps (batch.take l)).exit = W0Exit.closedAbort →
        (write0Wire batch (batch.drop l) l resps (batch.take l)).sessionClosed = true ∧
        (write0Wire batch (batch.drop l) l resps (batch.take l)).flushed = false) ∧
      (write0Wire batch (batch.drop l) l resps (batch.take l)).exit ≠ W0Exit.skipped := by
  intro resps
  induction resps with
  | nil =>
    intro l
    refine ⟨?_, ?_, ?_⟩ <;> simp [write0Wire]
  | cons r rest ih =>
    intro l
    have hwire : batch.take l ++ (batch.drop l).take r.n = batch.take (l + r.n) :=
      (List.take_add batch l r.n).symm
    simp only [write0Wire]
    by_cases hfatal : r.err = some WErr.fatal
    · rw [if_pos hfatal]
      exact ⟨fun h => absurd h (by simp), fun _ => ⟨rfl, rfl⟩, by simp⟩
    · rw [if_neg hfatal]
      by_cases hdone : l + r.n = batch.length
      · rw [if_pos hdone]
        exact ⟨fun _ => ⟨by simp [hwire, hdone], rfl, rfl⟩,
          fun h => absurd h (by simp), by simp⟩
      · rw [if_neg hdone]
        rw [hwire]
        exact ih (l + r.n)

/-- C5: for every non-empty encoded batch, the robust write either writes the
entire batch — on completion the wire holds exactly the batch bytes, the
flush is reached and the session stays open — or a non-recoverable write error
closes the session and aborts before the flush; the empty-batch early return
is never taken. -/
theorem c5_robust_write (batch : List Nat) (resps : List WResp) (hne : batch ≠ []) :
    ((write0Robust batch resps).exit = W0Exit.completed →
      (write0Robust batch resps).wire = batch ∧
      (write0Robust batch resps).sessionClosed = false ∧
      (write0Robust batch resps).flushed = true) ∧
    ((write0Robust batch resps).exit = W0Exit.closedAbort →
      (write0Robust batch resps).sessionClosed = true ∧
      (write0Robust batch resps).flushed = false) ∧
    (write0Robust batch resps).exit ≠ W0Exit.skipped := by
  have hlen : ¬batch.length = 0 := by simpa using hne
  unfold write0Robust
  rw [if_neg hlen]
  have h := write0Wire_spec batch resps 0
  simpa using h

/-- Witness for C5: a three-byte batch written in a short write of two bytes
and a retry of one arrives whole, flushed, with the session open. -/
theorem c5_robust_write_witness :
    (write0Robust [1, 2, 3] [⟨2, some WErr.shortWrite⟩, ⟨1, none⟩]).wire = [1, 2, 3] ∧
    (write0Robust [1, 2, 3] [⟨2, some WErr.shortWrite⟩, ⟨1, none⟩]).sessionClosed = false ∧
    (write0Robust [1, 2, 3] [⟨2, some WErr.shortWrite⟩, ⟨1, none⟩]).flushed = true :=
  (c5_robust_write [1, 2, 3] [⟨2, some WErr.shortWrite⟩, ⟨1, none⟩] (by decide)).1 (by decide)

/-! ### Session.ReadPacket (the read loop), session.go lines 67-123 -/

/-- The collaborators and constants one read-loop iteration consults.
Modelled from the spec where the `packet` and `codec` packages are missing
from `src/`: `headLen` is `packet.PACKET_HEAD_LEN`, `maxBytes` is
`packet.MAX_PACKET_BYTES`, `unmarshalHeader` is `packet.UnmarshalHeader` and
`unmarshalPacket` is `frameCodec.UnmarshalPacket`. -/
structure RPEnv where
  headLen : Nat
  maxBytes : Nat
  unmarshalHeader : List Nat → Except Unit Header
  unmarshalPacket : Packet → Except Unit Packet

/-- The state one read-loop iteration can touch: the closed flag, the
remaining transport responses, the inbound channel contents (a publish
appends) and the optional flow-statistics sink. -/
structure RPState where
  closed : Bool
  stream : List RResp
  readChannel : List Packet
  flowStat : Option FlowStat
  deriving Repr, DecidableEq

/-- What the closure inside the read loop returned: a nil error (the loop
keeps going), a non-nil error (the loop breaks), or it is still blocked on
the transport. -/
inductive IterRet where
  | retNil
  | retErr
  | blocked
  deriving Repr, DecidableEq

/-- One iteration of `ReadPacket`: read `headLen` bytes via `read0`; decode the
header, closing the session on failure; compare `BodyLen` with the maximum —
the oversized branch logs and does `return err`, but `err` is the nil error of
the successful header decode, so it neither closes the session nor consumes
the body; otherwise read the body, decode the packet (a decode failure drops
the packet and returns nil), publish it and bump the guarded flow counters. -/
def readIteration (env : RPEnv) (st : RPState) : IterRet × RPState :=
  let r1 := read0 env.headLen st.stream
  if r1.errReturned then (IterRet.retErr, { st with closed := true, stream := r1.rest })
  else
    match r1.buff with
    | none => (IterRet.blocked, { st with stream := r1.rest })
    | some hb =>
      match env.unmarshalHeader hb with
      | Except.error _ => (IterRet.retErr, { st with closed := true, stream := r1.rest })
      | Except.ok head =>
        if env.maxBytes < head.bodyLen then
          (IterRet.retNil, { st with stream := r1.rest })
        else
          let r2 := read0 head.bodyLen r1.rest
          if r2.errReturned then
            (IterRet.retErr, { st with closed := true, stream := r2.rest })
          else
            match r2.buff with
            | none => (IterRet.blocked, { st with stream := r2.rest })
            | some body =>
              match env.unmarshalPacket ⟨head, body⟩ with
              | Except.error _ => (IterRet.retNil, { st with stream := r2.rest })
              | Except.ok pp =>
                let fs :=
                  match st.flowStat with
                  | none => (none : Option FlowStat)
                  | some f =>
                    some
                      { f with
                        readFlow := f.readFlow + 1
                        readBytesFlow := f.readBytesFlow + (env.headLen + head.bodyLen) }
                (IterRet.retNil,
                  { st with
                    stream := r2.rest
                    readChannel := st.readChannel ++ [pp]
                    flowStat := fs })

/-- The outer loop of `ReadPacket` with fuel: while the session is open, run
an iteration; a nil error continues, a non-nil error breaks, and a blocked
iteration stays where it is. -/
def readLoop (env : RPEnv) : Nat → RPState → RPState
  | 0, st => st
  | n + 1, st =>
    if st.closed then st
    else
      match readIteration env st with
      | (IterRet.retNil, st') => readLoop env n st'
      | (_, st') => st'

/-- A single transport response carrying exactly the requested count is
consumed whole: `read0` returns it as the buffer and leaves the rest. -/
theorem read0_single_chunk (N : Nat) (c : List Nat) (rest : List RResp)
    (h : c.length = N) :
    read0 N (⟨c, false⟩ :: rest) = ⟨some c, false, false, rest⟩ := by
  subst h
  simp [read0, read0Go]

/-- C1 evaluated at a failing input (header length 2, maximum body length 5,
header decoding to `BodyLen = 6`): the iteration returns the nil error with
the session still open and the body bytes unread, and two loop steps keep
running — consuming the unread body bytes as the next header — with the
session never closed.  This refutes "the session is closed and the read loop
terminates" for an oversized body. -/
theorem c1_oversized_body_keeps_looping :
    readIteration
        ⟨2, 5, fun _ => Except.ok ⟨6⟩, fun p => Except.ok p⟩
        ⟨false, [⟨[1, 2], false⟩, ⟨[3, 4], false⟩], [], none⟩ =
      (IterRet.retNil, ⟨false, [⟨[3, 4], false⟩], [], none⟩) ∧
    (readLoop ⟨2, 5, fun _ => Except.ok ⟨6⟩, fun p => Except.ok p⟩ 2
        ⟨false, [⟨[1, 2], false⟩, ⟨[3, 4], false⟩], [], none⟩).closed = false ∧
    (readLoop ⟨2, 5, fun _ => Except.ok ⟨6⟩, fun p => Except.ok p⟩ 2
        ⟨false, [⟨[1, 2], false⟩, ⟨[3, 4], false⟩], [], none⟩).stream = [] := by
  refine ⟨?_, ?_, ?_⟩ <;> rfl

/-- C7: a well-framed packet (header decoded, body of `BodyLen` bytes fully
read) whose codec-level decode fails is dropped: the iteration returns the nil
error, the closed flag and the inbound channel are untouched, and the stream
is left exactly past the consumed header and body, so subsequent packets are
processed unchanged. -/
theorem c7_decode_failure_drops_packet (env : RPEnv) (st : RPState)
    (hb bb : List Nat) (head : Header) (rest : List RResp)
    (hstream : st.stream = ⟨hb, false⟩ :: ⟨bb, false⟩ :: rest)
    (hhlen : hb.length = env.headLen)
    (hhead : env.unmarshalHeader hb = Except.ok head)
    (hmax : head.bodyLen ≤ env.maxBytes)
    (hblen : bb.length = head.bodyLen)
    (hfail : env.unmarshalPacket ⟨head, bb⟩ = Except.error ()) :
    readIteration env st = (IterRet.retNil, { st with stream := rest }) := by
  unfold readIteration
  rw [hstream, read0_single_chunk env.headLen hb (⟨bb, false⟩ :: rest) hhlen]
  simp only [hhead]
  rw [if_neg (by omega : ¬env.maxBytes < head.bodyLen)]
  rw [read0_single_chunk head.bodyLen bb rest hblen]
  simp only [hfail]
  simp

/-- Witness for C7 at a concrete session: header `[1, 2]` decoding to
`BodyLen = 3`, body `[7, 8, 9]`, and a codec that rejects every packet. -/
theorem c7_decode_failure_drops_packet_witness :
    readIteration
        ⟨2, 5, fun _ => Except.ok ⟨3⟩, fun _ => Except.error ()⟩
        ⟨false, [⟨[1, 2], false⟩, ⟨[7, 8, 9], false⟩], [], none⟩ =
      (IterRet.retNil, ⟨false, [], [], none⟩) :=
  c7_decode_failure_drops_packet
    ⟨2, 5, fun _ => Except.ok ⟨3⟩, fun _ => Except.error ()⟩
    ⟨false, [⟨[1, 2], false⟩, ⟨[7, 8, 9], false⟩], [], none⟩
    [1, 2] [7, 8, 9] ⟨3⟩ [] rfl rfl rfl (by decide) rfl rfl

/-- C9 evaluated at the failing input (a nil flow-statistics sink):
`NewSession` panics on the unguarded `rc.FlowStat.Connections.Incr(1)` and
`Close` panics on the unguarded `rc.FlowStat.Connections.Incr(-1)`, while the
read pipeline — which does guard the sink — publishes a packet normally with
no sink configured. -/
theorem c9_nil_sink_panics_in_new_and_close :
    newSession none = GoResult.nilPanic ∧
    sessionCloseLC ⟨false, goZeroTimeNs, none⟩ = GoResult.nilPanic ∧
    readIteration
        ⟨1, 5, fun _ => Except.ok ⟨1⟩, fun p => Except.ok p⟩
        ⟨false, [⟨[9], false⟩, ⟨[5], false⟩], [], none⟩ =
      (IterRet.retNil, ⟨false, [], [⟨⟨1⟩, [5]⟩], none⟩) := by
  refine ⟨rfl, ?_, ?_⟩ <;> rfl

/-! ### Session.WritePacket (the write loop) and Session.Idle, session.go
lines 61-64 and 217-252 -/

/-- The batch-collection step of `WritePacket`: one blocking receive from the
outbound channel, then up to `min(len(channel), 100)` further non-blocking
receives; nil pointers are skipped.  Returns the collected packets in receive
(enqueue) order and the channel contents left behind. -/
def collectBatch (ch : List (Option Packet)) : List Packet × List (Option Packet) :=
  match ch with
  | [] => ([], [])
  | p :: rest =>
    let l := min rest.length 100
    let first := match p with | some q => [q] | none => ([] : List Packet)
    (first ++ (rest.take l).filterMap id, rest.drop l)

/-- The state one `WritePacket` loop iteration can touch: the closed flag, the
outbound channel, the last-activity timestamp and the wire. -/
structure WPState where
  isClose : Bool
  writeChannel : List (Option Packet)
  lasttime : Int
  wire : List Nat
  deriving Repr, DecidableEq

/-- One iteration of `WritePacket` at the current time `now`: collect a batch;
when at least one packet was collected, run `write0` (encode then the robust
write) and then set `lasttime = time.Now()` — unconditionally, whether or not
the write succeeded or even closed the session. -/
def writePacketIter (codec : Packet → Except Unit (List Nat)) (resps : List WResp)
    (now : Int) (st : WPState) : WPState :=
  match st.writeChannel with
  | [] => st
  | _ :: _ =>
    let pr := collectBatch st.writeChannel
    if 0 < pr.1.length then
      let out := write0Robust (write0Batch codec pr.1) resps
      { st with
        writeChannel := pr.2
        wire := st.wire ++ out.wire
        isClose := st.isClose || out.sessionClosed
        lasttime := now }
    else
      { st with writeChannel := pr.2 }

/-- C8 counterexample: a batch whose very first transport write fails fatally
closes the session, yet `WritePacket` still updates the last-activity
timestamp (here from 0 to 7) — refuting "the last-activity timestamp is
updated only on successful batch writes, not on failed ones". -/
theorem c8_lasttime_updated_on_failed_write :
    (writePacketIter (fun p => Except.ok p.data) [⟨0, some WErr.fatal⟩] 7
        ⟨false, [some ⟨⟨1⟩, [9]⟩], 0, []⟩).isClose = true ∧
    (writePacketIter (fun p => Except.ok p.data) [⟨0, some WErr.fatal⟩] 7
        ⟨false, [some ⟨⟨1⟩, [9]⟩], 0, []⟩).lasttime = 7 := by
  exact ⟨rfl, rfl⟩

/-- C8 as amended: `Idle()` is true iff the current time is after the
last-activity timestamp plus the idle threshold, and (for a non-negative
threshold) it is false immediately after a batch is dispatched; but the
last-activity timestamp is updated after every dispatched non-empty batch,
whether the write succeeded or failed. -/
theorem c8_idle_amended (codec : Packet → Except Unit (List Nat)) (resps : List WResp)
    (now tnow lt idl : Int) (st : WPState) (q : Packet)
    (hhead : st.writeChannel.head? = some (some q))
    (hidle : 0 ≤ idl) :
    (sessionIdle lt idl now = true ↔ lt + idl < now) ∧
    (writePacketIter codec resps tnow st).lasttime = tnow ∧
    sessionIdle (writePacketIter codec resps tnow st).lasttime idl tnow = false := by
  obtain ⟨ch, hch⟩ : ∃ ch, st.writeChannel = some q :: ch := by
    cases hwc : st.writeChannel with
    | nil => rw [hwc] at hhead; simp at hhead
    | cons a ch =>
      rw [hwc] at hhead
      simp at hhead
      exact ⟨ch, by rw [hhead]⟩
  have hpos : 0 < (collectBatch (some q :: ch)).1.length := by
    simp [collectBatch]
  have hlt : (writePacketIter codec resps tnow st).lasttime = tnow := by
    unfold writePacketIter
    rw [hch]
    dsimp only
    rw [if_pos hpos]
  refine ⟨by simp [sessionIdle], hlt, ?_⟩
  rw [hlt]
  simp only [sessionIdle, decide_eq_false_iff_not]
  omega

/-- Witness for C8 (amended) at a concrete one-packet batch dispatched at
time 5 with threshold 2. -/
theorem c8_idle_amended_witness :
    (sessionIdle 0 2 3 = true ↔ (0 : Int) + 2 < 3) ∧
    (writePacketIter (fun p => Except.ok p.data) [] 5
        ⟨false, [some ⟨⟨1⟩, [9]⟩], 0, []⟩).lasttime = 5 ∧
    sessionIdle
      (writePacketIter (fun p => Except.ok p.data) [] 5
        ⟨false, [some ⟨⟨1⟩, [9]⟩], 0, []⟩).lasttime 2 5 = false :=
  c8_idle_amended (fun p => Except.ok p.data) [] 3 5 0 2
    ⟨false, [some ⟨⟨1⟩, [9]⟩], 0, []⟩ ⟨⟨1⟩, [9]⟩ rfl (by decide)

end Turbo
